import Mathlib

/-!
Shallow embedding of the Quick-RMBG orchestration layer
(`src/quick_rmbg/cli.py` and the configuration getters of
`src/quick_rmbg/config.py` that it calls).

The program shells out to an external `rembg` binary and to dialog tools;
those external effects are abstracted into an oracle (`Env`) that fixes,
for one top-level invocation: which files exist, whether the rembg binary
was resolved, the configured suffix / model / ROCm value, the ambient
process environment, the outcome of the k-th spawned rembg process, and
the availability and exit codes of the kdialog / zenity dialog tools.
Every function below is a direct transcription of the corresponding
Python function; orchestrators additionally return the list of rembg
invocations they performed (input path, output path, environment used),
which instruments the subprocess calls the Python code makes.
-/

/-- Python `str.lower` restricted to the comparisons this program makes
(ASCII case folding; all extension literals compared against are ASCII). -/
def strLower (s : String) : String := ⟨s.data.map Char.toLower⟩

/-- Decimal rendering of a natural number, modelling the Python string
formatting of a nonnegative `int` in an f-string.  Fuel-based so that it is structurally
recursive (the fuel `n + 1` always suffices). -/
def decChars : Nat → Nat → List Char
  | 0, _ => []
  | fuel + 1, n =>
    if n < 10 then [Nat.digitChar n]
    else decChars fuel (n / 10) ++ [Nat.digitChar (n % 10)]

/-- Decimal string of a natural number (Python `f"{n}"`). -/
def pyNat (n : Nat) : String := ⟨decChars (n + 1) n⟩

/-- A filesystem path, as the orchestrator uses it: a parent directory and
a final component (`pathlib.Path.name`).  The pathlib `stem`/`suffix` are
computed from `name` below. -/
structure PyPath where
  dir : String
  name : String
deriving DecidableEq, Repr

/-- Index of the last `.` in a list of characters, if any. -/
def lastDot : List Char → Option Nat
  | [] => none
  | c :: rest =>
    match lastDot rest with
    | some i => some (i + 1)
    | none => if c = '.' then some 0 else none

/-- Python `pathlib` stem/suffix split of a final path component: the
suffix starts at the last dot provided that dot is neither the first nor
the last character; otherwise the suffix is empty. -/
def pysplit (name : String) : String × String :=
  match lastDot name.data with
  | some i =>
    if 0 < i ∧ i < name.data.length - 1 then
      (⟨name.data.take i⟩, ⟨name.data.drop i⟩)
    else (name, "")
  | none => (name, "")

/-- `pathlib.Path.stem` of the final component of a path. -/
def pystem (name : String) : String := (pysplit name).1

/-- `pathlib.Path.suffix` of the final component of a path. -/
def pysuffix (name : String) : String := (pysplit name).2

/-- `str(path)` as printed in error messages. -/
def PyPath.render (p : PyPath) : String :=
  if p.dir = "" then p.name else p.dir ++ "/" ++ p.name

/-- `SUPPORTED_FORMATS` from `cli.py` line 10. -/
def SUPPORTED_FORMATS : List String :=
  [".png", ".jpg", ".jpeg", ".webp", ".bmp", ".tiff", ".tif"]

/-- The format check shared by all three workflow modes
(`input_path.suffix.lower() in SUPPORTED_FORMATS`). -/
def formatSupported (ext : String) : Prop :=
  strLower ext ∈ SUPPORTED_FORMATS

instance (ext : String) : Decidable (formatSupported ext) := by
  unfold formatSupported; infer_instance

/-- Outcome of one `subprocess.run` call on the rembg binary, as the
`try` block of `_run_rembg` observes it: the process completed (with exit
code and captured stdout/stderr), the 120-second timeout expired
(`subprocess.TimeoutExpired`), or launching raised some other exception
whose `str(e)` is recorded. -/
inductive ProcOutcome where
  | completed (returncode : Int) (stdout : String) (stderr : String)
  | timedOut
  | launchFailed (msg : String)
deriving DecidableEq, Repr

/-- `_run_rembg` (cli.py lines 13-45): classify a subprocess outcome into
`(success, error_message)`. -/
def run_rembg (o : ProcOutcome) : Bool × String :=
  match o with
  | .completed rc out err =>
    if rc = 0 then (true, "")
    else (false, if err ≠ "" then err else if out ≠ "" then out else "Unknown error")
  | .timedOut => (false, "Operation timed out (>2 minutes)")
  | .launchFailed m => (false, m)

/-- `get_rocm_gfx_version` (config.py lines 92-99): the raw configured
value is a JSON string or null; empty string and null are both treated as
disabled. -/
def get_rocm_gfx_version (cfg : Option String) : Option String :=
  match cfg with
  | none => none
  | some s => if s = "" then none else some s

/-- Environment construction of `_prepare_rembg` (cli.py lines 63-66):
copy the ambient environment and overlay `HSA_OVERRIDE_GFX_VERSION` only
when the configured value is enabled. -/
def prepare_env (ambient : String → Option String) (cfg : Option String) :
    String → Option String :=
  match get_rocm_gfx_version cfg with
  | some v => fun k => if k = "HSA_OVERRIDE_GFX_VERSION" then some v else ambient k
  | none => ambient

/-- Oracle fixing every external effect for one top-level invocation:
filesystem, configuration getters, the outcome of the k-th spawned rembg
process (0-indexed), and the availability and exit codes of the dialog tools
(indexed by pass number). -/
structure Env where
  fileExists : PyPath → Bool
  rembgBinary : Option String
  model : String
  outputSuffix : String
  rocmGfxConfig : Option String
  ambientEnv : String → Option String
  outcomes : Nat → ProcOutcome
  kdialogAvail : Bool
  zenityAvail : Bool
  kdialogCode : Nat → Int
  zenityCode : Nat → Int

/-- One recorded rembg invocation: which input and output paths were
passed to `_run_rembg`, and which environment map the subprocess was
started with. -/
structure RembgCall where
  input : PyPath
  output : PyPath
  envUsed : String → Option String

/-- Result of one workflow function: the `(success, message)` pair the
Python function returns, plus instrumentation: `passNames` is the
`all_passes` list of the infinite-hop loop (empty for the other modes,
which keep no such list) and `calls` the sequence of rembg invocations
performed. -/
structure RunResult where
  success : Bool
  message : String
  passNames : List String
  calls : List RembgCall

/-- `_prepare_rembg` (cli.py lines 48-68): resolve the binary, read the
model, build the environment; on failure return an install hint. -/
def prepare_rembg (w : Env) :
    Option String × String × (String → Option String) × String :=
  match w.rembgBinary with
  | none => (none, "", fun _ => none,
      "rembg not found.\nInstall it with: pip install rembg[cli]")
  | some b => (some b, w.model, prepare_env w.ambientEnv w.rocmGfxConfig, "")

/-- `remove_background` (cli.py lines 71-105): single-pass workflow. -/
def remove_background (w : Env) (input_path : PyPath)
    (output_path : Option PyPath) : RunResult :=
  if w.fileExists input_path = false then
    ⟨false, "File not found: " ++ input_path.render, [], []⟩
  else if ¬ formatSupported (pysuffix input_path.name) then
    ⟨false, "Unsupported format: " ++ pysuffix input_path.name, [], []⟩
  else
    match prepare_rembg w with
    | (none, _, _, error) => ⟨false, error, [], []⟩
    | (some _, _, env, _) =>
      let out : PyPath :=
        match output_path with
        | some p => p
        | none => ⟨input_path.dir, pystem input_path.name ++ w.outputSuffix ++ ".png"⟩
      let r := run_rembg (w.outcomes 0)
      if r.1 then
        ⟨true, "Background removed.\nSaved to: " ++ out.name, [],
          [⟨input_path, out, env⟩]⟩
      else
        ⟨false, "rembg failed: " ++ r.2, [], [⟨input_path, out, env⟩]⟩

/-- `remove_background_two_pass` (cli.py lines 108-149). -/
def remove_background_two_pass (w : Env) (input_path : PyPath) : RunResult :=
  if w.fileExists input_path = false then
    ⟨false, "File not found: " ++ input_path.render, [], []⟩
  else if ¬ formatSupported (pysuffix input_path.name) then
    ⟨false, "Unsupported format: " ++ pysuffix input_path.name, [], []⟩
  else
    match prepare_rembg w with
    | (none, _, _, error) => ⟨false, error, [], []⟩
    | (some _, _, env, _) =>
      let first_pass_path : PyPath :=
        ⟨input_path.dir, pystem input_path.name ++ "_noBG-first-pass.png"⟩
      let r1 := run_rembg (w.outcomes 0)
      if r1.1 = false then
        ⟨false, "First pass failed: " ++ r1.2, [],
          [⟨input_path, first_pass_path, env⟩]⟩
      else
        let second_pass_path : PyPath :=
          ⟨input_path.dir, pystem input_path.name ++ "_noBG-second-pass.png"⟩
        let r2 := run_rembg (w.outcomes 1)
        if r2.1 = false then
          ⟨false, "Second pass failed: " ++ r2.2, [],
            [⟨input_path, first_pass_path, env⟩,
             ⟨first_pass_path, second_pass_path, env⟩]⟩
        else
          ⟨true, "Two-pass background removal complete.\nFirst pass: "
              ++ first_pass_path.name ++ "\nFinal: " ++ second_pass_path.name, [],
            [⟨input_path, first_pass_path, env⟩,
             ⟨first_pass_path, second_pass_path, env⟩]⟩

/-- Result of the confirmation gate: the boolean `_ask_user_happy`
returns, plus any lines it printed to stdout. -/
structure GateOut where
  happy : Bool
  printed : List String
deriving DecidableEq, Repr

/-- `_ask_user_happy` (cli.py lines 152-206): try kdialog; on
`FileNotFoundError` fall back to zenity; if that is also missing, print a
notice and auto-accept.  Exit code 0 of whichever tool ran means
"happy". -/
def ask_user_happy (w : Env) (pass_number : Nat) : GateOut :=
  if w.kdialogAvail then ⟨w.kdialogCode pass_number == 0, []⟩
  else if w.zenityAvail then ⟨w.zenityCode pass_number == 0, []⟩
  else ⟨true,
    ["No dialog tool available (kdialog/zenity). Stopping after this pass."]⟩

/-- Output path of infinite-hop pass `n`:
`input_path.parent / f"{input_path.stem}_noBG-pass-{n}.png"`
(cli.py line 241). -/
def passPath (input_path : PyPath) (n : Nat) : PyPath :=
  ⟨input_path.dir, pystem input_path.name ++ "_noBG-pass-" ++ pyNat n ++ ".png"⟩

/-- The per-pass lines of the infinite-hop summary (cli.py line 263):
`"\n".join(f"  Pass {i+1}: {p}" for i, p in enumerate(all_passes))`. -/
def passListLines (all_passes : List String) : String :=
  String.intercalate "\n"
    (all_passes.enum.map fun pr => "  Pass " ++ pyNat (pr.1 + 1) ++ ": " ++ pr.2)

/-- Success message of the infinite-hop loop (cli.py lines 259-264). -/
def hopSummary (pass_number : Nat) (all_passes : List String)
    (final_output : PyPath) : String :=
  if pass_number = 1 then
    "Infinite Hop complete after 1 pass.\nFinal: " ++ final_output.name
  else
    "Infinite Hop complete after " ++ pyNat pass_number ++ " passes.\n"
      ++ passListLines all_passes ++ "\nFinal: " ++ final_output.name

/-- The `while True` loop of `remove_background_infinite_hop`
(cli.py lines 239-264), with explicit state (`pass_number`,
`current_input`, `all_passes`, accumulated calls) and fuel bounding the
number of iterations still allowed (`none` = fuel exhausted, which has no
counterpart in a terminating run of the Python loop). -/
def hopLoop (w : Env) (input_path : PyPath) (env : String → Option String) :
    Nat → Nat → PyPath → List String → List RembgCall → Option RunResult
  | 0, _, _, _, _ => none
  | fuel + 1, pass_number, current_input, all_passes, calls =>
    let output_path := passPath input_path pass_number
    let r := run_rembg (w.outcomes (pass_number - 1))
    let calls2 := calls ++ [⟨current_input, output_path, env⟩]
    if r.1 = false then
      some ⟨false, "Pass " ++ pyNat pass_number ++ " failed: " ++ r.2,
        all_passes, calls2⟩
    else
      let all2 := all_passes ++ [output_path.name]
      if (ask_user_happy w pass_number).happy then
        some ⟨true, hopSummary pass_number all2 output_path, all2, calls2⟩
      else
        hopLoop w input_path env fuel (pass_number + 1) output_path all2 calls2

/-- `remove_background_infinite_hop` (cli.py lines 209-264). -/
def remove_background_infinite_hop (w : Env) (input_path : PyPath)
    (fuel : Nat) : Option RunResult :=
  if w.fileExists input_path = false then
    some ⟨false, "File not found: " ++ input_path.render, [], []⟩
  else if ¬ formatSupported (pysuffix input_path.name) then
    some ⟨false, "Unsupported format: " ++ pysuffix input_path.name, [], []⟩
  else
    match prepare_rembg w with
    | (none, _, _, error) => some ⟨false, error, [], []⟩
    | (some _, _, env, _) => hopLoop w input_path env fuel 1 input_path [] []

/-- The sequence of rembg calls a run of the infinite-hop loop performs
when it starts at pass `p` with current input `cur` and executes `k`
passes: each pass reads the output of the previous pass. -/
def hopChain (input_path : PyPath) (env : String → Option String) :
    PyPath → Nat → Nat → List RembgCall
  | _, _, 0 => []
  | cur, p, k + 1 =>
    ⟨cur, passPath input_path p, env⟩ ::
      hopChain input_path env (passPath input_path p) (p + 1) k

/-- Placeholder call used as the default of `List.getD`. -/
def dummyCall : RembgCall := ⟨⟨"", ""⟩, ⟨"", ""⟩, fun _ => none⟩

/-- Concrete sample input used by the witnesses: `photo.png` in the
current directory. -/
def pPhoto : PyPath := ⟨"", "photo.png"⟩

/-- Concrete oracle builder used by the witnesses: the binary resolves,
configuration defaults from `config.py`, kdialog available. -/
def mkEnv (ex : PyPath → Bool) (outcomes : Nat → ProcOutcome)
    (kdCode : Nat → Int) : Env :=
  ⟨ex, some "/usr/bin/rembg", "u2net", "_noBG", some "11.0.1", fun _ => none,
    outcomes, true, false, kdCode, fun _ => 1⟩

/-- Oracle where every rembg run succeeds and the dialog always accepts. -/
def wS : Env := mkEnv (fun _ => true) (fun _ => ProcOutcome.completed 0 "" "")
  (fun _ => 0)

/-- Oracle where the user declines the dialog after pass 1 and accepts
after pass 2. -/
def wHop : Env := mkEnv (fun _ => true) (fun _ => ProcOutcome.completed 0 "" "")
  (fun n => if n = 1 then 1 else 0)

/-- Oracle where every rembg run exits 1 with stderr "boom". -/
def wFail : Env := mkEnv (fun _ => true)
  (fun _ => ProcOutcome.completed 1 "" "boom") (fun _ => 1)

/-- Oracle where no file exists. -/
def wMissing : Env := mkEnv (fun _ => false)
  (fun _ => ProcOutcome.completed 0 "" "") (fun _ => 0)

/-- Oracle with neither dialog tool available. -/
def wNoDialog : Env :=
  ⟨fun _ => true, some "/usr/bin/rembg", "u2net", "_noBG", some "11.0.1",
    fun _ => none, fun _ => ProcOutcome.completed 0 "" "", false, false,
    fun _ => 0, fun _ => 0⟩

/-- Oracle with the ROCm override disabled (null in the configuration). -/
def wNoRocm : Env :=
  ⟨fun _ => true, some "/usr/bin/rembg", "u2net", "_noBG", none, fun _ => none,
    fun _ => ProcOutcome.completed 0 "" "", true, false, fun _ => 0, fun _ => 0⟩

/-- Decoder of a decimal digit list, used to prove `pyNat` injective. -/
def decVal (cs : List Char) : Nat :=
  cs.foldl (fun a c => 10 * a + (c.toNat - 48)) 0

theorem decVal_append_digit (xs : List Char) (c : Char) :
    decVal (xs ++ [c]) = 10 * decVal xs + (c.toNat - 48) := by
  simp [decVal, List.foldl_append]

theorem digitChar_toNat {n : Nat} (h : n < 10) : (Nat.digitChar n).toNat = 48 + n := by
  interval_cases n <;> decide

theorem decVal_decChars : ∀ fuel n, n < fuel → decVal (decChars fuel n) = n := by
  intro fuel
  induction fuel with
  | zero => intro n h; omega
  | succ fuel ih =>
    intro n h
    by_cases h10 : n < 10
    · simp [decChars, h10, decVal, digitChar_toNat h10]
    · have hdiv : n / 10 < fuel := by
        have := Nat.div_lt_self (show 0 < n by omega) (show 1 < 10 by omega)
        omega
      have hmod : n % 10 < 10 := Nat.mod_lt n (by omega)
      rw [decChars]
      simp only [h10, if_false]
      rw [decVal_append_digit, ih _ hdiv, digitChar_toNat hmod]
      omega

theorem decChars_inj {m n : Nat} (h : decChars (m + 1) m = decChars (n + 1) n) :
    m = n := by
  have hm := decVal_decChars (m + 1) m (Nat.lt_succ_self m)
  have hn := decVal_decChars (n + 1) n (Nat.lt_succ_self n)
  rw [← hm, ← hn, h]

theorem pyNat_injective {m n : Nat} (h : pyNat m = pyNat n) : m = n :=
  decChars_inj (congrArg String.data h)

theorem strLower_data (s : String) : (strLower s).data = s.data.map Char.toLower := rfl

theorem formatSupported_length {e : String} (h : formatSupported e) :
    e.data.length ≤ 5 := by
  have hlen : e.data.length = (strLower e).data.length := by
    simp [strLower_data]
  simp only [formatSupported, SUPPORTED_FORMATS, List.mem_cons, List.not_mem_nil,
    or_false] at h
  rcases h with h | h | h | h | h | h | h <;> (rw [hlen, h]; decide)

theorem fmt_png_split {e os : String} (hf : formatSupported e)
    (he : e = os ++ ".png") : os = "" ∧ e = ".png" := by
  have hd : (strLower e).data = (strLower os).data ++ String.data ".png" := by
    rw [he, strLower_data, String.data_append, List.map_append]
    rfl
  have hb2 : (strLower os).data.length + 4 ≤ 5 := by
    have h1 : (strLower e).data.length = e.data.length := by simp [strLower_data]
    have h2 := congrArg List.length hd
    simp only [List.length_append, List.length_cons, List.length_nil] at h2
    rw [h1] at h2
    have := formatSupported_length hf
    omega
  simp only [formatSupported, SUPPORTED_FORMATS, List.mem_cons, List.not_mem_nil,
    or_false] at hf
  have hos : (strLower os).data = [] := by
    rcases hA : (strLower os).data with _ | ⟨c, A2⟩
    · rfl
    · exfalso
      rw [hA] at hd hb2
      have hA2 : A2 = [] := by
        simp only [List.length_cons] at hb2
        exact List.eq_nil_of_length_eq_zero (by omega)
      subst hA2
      rcases hf with h | h | h | h | h | h | h <;> (rw [h] at hd; simp_all)
  have hosS : os = "" := by
    have h0 : os.data = [] := List.map_eq_nil_iff.mp (by rw [← strLower_data]; exact hos)
    cases os
    simp_all
  have heS : e = ".png" := by rw [he, hosS]; rfl
  exact ⟨hosS, heS⟩

theorem pystem_append_pysuffix (nm : String) :
    (pystem nm).data ++ (pysuffix nm).data = nm.data := by
  unfold pystem pysuffix pysplit
  cases hld : lastDot nm.data with
  | none => simp
  | some i =>
    dsimp only
    by_cases hi : 0 < i ∧ i < nm.data.length - 1
    · rw [if_pos hi]
      exact List.take_append_drop i nm.data
    · rw [if_neg hi]
      simp

/-- If the (case-insensitively) supported extension of `nm` is at most 5
characters, `nm` cannot equal its own stem followed by a tail longer than
5 characters. -/
theorem name_ne_stem_append {nm : String} (hf : formatSupported (pysuffix nm))
    {tail : String} (hlen : 5 < tail.data.length) :
    nm ≠ pystem nm ++ tail := by
  intro he
  have hd : nm.data = (pystem nm).data ++ tail.data := by
    have := congrArg String.data he
    rwa [String.data_append] at this
  have h2 : (pystem nm).data ++ (pysuffix nm).data = (pystem nm).data ++ tail.data := by
    rw [pystem_append_pysuffix]
    exact hd
  have h3 := List.append_cancel_left h2
  have h4 : (pysuffix nm).data.length ≤ 5 := formatSupported_length hf
  rw [h3] at h4
  omega

theorem str_data_inj {a b : String} (h : a.data = b.data) : a = b := by
  cases a
  cases b
  exact congrArg String.mk h

theorem append_left_inj (s : String) {a b : String} (h : s ++ a = s ++ b) :
    a = b := by
  apply str_data_inj
  have h2 := congrArg String.data h
  rw [String.data_append, String.data_append] at h2
  exact List.append_cancel_left h2

theorem passPath_inj {input_path : PyPath} {m n : Nat}
    (h : passPath input_path m = passPath input_path n) : m = n := by
  have hn : (passPath input_path m).name = (passPath input_path n).name :=
    congrArg PyPath.name h
  unfold passPath at hn
  dsimp only at hn
  have hd := congrArg String.data hn
  simp only [String.data_append] at hd
  have h1 := List.append_cancel_right hd
  have h2 := List.append_cancel_left h1
  exact decChars_inj h2

theorem passPath_ne {input_path : PyPath} {m n : Nat} (h : m ≠ n) :
    passPath input_path m ≠ passPath input_path n :=
  fun he => h (passPath_inj he)

theorem input_ne_passPath {input_path : PyPath}
    (hf : formatSupported (pysuffix input_path.name)) (p : Nat) :
    input_path ≠ passPath input_path p := by
  intro he
  have hn : input_path.name = (passPath input_path p).name := congrArg PyPath.name he
  unfold passPath at hn
  dsimp only at hn
  rw [String.append_assoc, String.append_assoc] at hn
  have hlen : 5 < ("_noBG-pass-" ++ (pyNat p ++ ".png")).data.length := by
    simp only [String.data_append, List.length_append, List.length_cons,
      List.length_nil]
    omega
  exact name_ne_stem_append hf hlen hn

theorem hopChain_length (input_path : PyPath) (env : String → Option String) :
    ∀ k cur p, (hopChain input_path env cur p k).length = k := by
  intro k
  induction k with
  | zero => intro cur p; rfl
  | succ k ih =>
    intro cur p
    simp [hopChain, ih]

theorem hopChain_getD (input_path : PyPath) (env : String → Option String) :
    ∀ k p cur j, j < k →
      (hopChain input_path env cur p k).getD j dummyCall =
        ⟨if j = 0 then cur else passPath input_path (p + j - 1),
         passPath input_path (p + j), env⟩ := by
  intro k
  induction k with
  | zero => intro p cur j h; omega
  | succ k ih =>
    intro p cur j h
    cases j with
    | zero => simp [hopChain]
    | succ j =>
      have hj : j < k := by omega
      rw [hopChain]
      rw [List.getD_cons_succ]
      rw [ih (p + 1) (passPath input_path p) j hj]
      cases j with
      | zero => simp
      | succ j2 =>
        have e1 : p + 1 + (j2 + 1) - 1 = p + (j2 + 1 + 1) - 1 := by omega
        have e2 : p + 1 + (j2 + 1) = p + (j2 + 1 + 1) := by omega
        simp [e1, e2]

theorem hopLoop_happy (w : Env) (input_path : PyPath) (env : String → Option String)
    (N : Nat)
    (hrun : ∀ i, 1 ≤ i → i ≤ N → (run_rembg (w.outcomes (i - 1))).1 = true)
    (hgate : ∀ i, 1 ≤ i → i < N → (ask_user_happy w i).happy = false)
    (hhappy : (ask_user_happy w N).happy = true) :
    ∀ k p cur acc calls fuel, p + k = N → 1 ≤ p → k + 1 ≤ fuel →
      hopLoop w input_path env fuel p cur acc calls =
        some ⟨true,
          hopSummary N
            (acc ++ (List.range' p (k + 1)).map fun i => (passPath input_path i).name)
            (passPath input_path N),
          acc ++ (List.range' p (k + 1)).map fun i => (passPath input_path i).name,
          calls ++ hopChain input_path env cur p (k + 1)⟩ := by
  intro k
  induction k with
  | zero =>
    intro p cur acc calls fuel hpk hp hfuel
    have hpN : p = N := by omega
    subst hpN
    obtain ⟨f, rfl⟩ : ∃ f, fuel = f + 1 := ⟨fuel - 1, by omega⟩
    have hrp : (run_rembg (w.outcomes (p - 1))).1 = true := hrun p hp (le_refl p)
    rw [hopLoop]
    simp [hrp, hhappy, hopChain, List.range']
  | succ k ih =>
    intro p cur acc calls fuel hpk hp hfuel
    obtain ⟨f, rfl⟩ : ∃ f, fuel = f + 1 := ⟨fuel - 1, by omega⟩
    have hrp : (run_rembg (w.outcomes (p - 1))).1 = true := hrun p hp (by omega)
    have hgp : (ask_user_happy w p).happy = false := hgate p hp (by omega)
    have hstep : hopLoop w input_path env (f + 1) p cur acc calls =
        hopLoop w input_path env f (p + 1) (passPath input_path p)
          (acc ++ [(passPath input_path p).name])
          (calls ++ [⟨cur, passPath input_path p, env⟩]) := by
      rw [hopLoop]
      simp [hrp, hgp]
    rw [hstep, ih (p + 1) (passPath input_path p)
      (acc ++ [(passPath input_path p).name])
      (calls ++ [RembgCall.mk cur (passPath input_path p) env]) f
      (by omega) (by omega) (by omega)]
    have hr : List.range' p (k + 1 + 1) = p :: List.range' (p + 1) (k + 1) :=
      List.range'_succ p (k + 1) 1
    simp [hr, hopChain, List.append_assoc]

theorem hopLoop_fail (w : Env) (input_path : PyPath) (env : String → Option String)
    (N : Nat)
    (hrun : ∀ i, 1 ≤ i → i < N → (run_rembg (w.outcomes (i - 1))).1 = true)
    (hgate : ∀ i, 1 ≤ i → i < N → (ask_user_happy w i).happy = false)
    (hfailN : (run_rembg (w.outcomes (N - 1))).1 = false) :
    ∀ k p cur acc calls fuel, p + k = N → 1 ≤ p → k + 1 ≤ fuel →
      hopLoop w input_path env fuel p cur acc calls =
        some ⟨false,
          "Pass " ++ pyNat N ++ " failed: " ++ (run_rembg (w.outcomes (N - 1))).2,
          acc ++ (List.range' p k).map fun i => (passPath input_path i).name,
          calls ++ hopChain input_path env cur p (k + 1)⟩ := by
  intro k
  induction k with
  | zero =>
    intro p cur acc calls fuel hpk hp hfuel
    have hpN : p = N := by omega
    subst hpN
    obtain ⟨f, rfl⟩ : ∃ f, fuel = f + 1 := ⟨fuel - 1, by omega⟩
    rw [hopLoop]
    simp [hfailN, hopChain, List.range']
  | succ k ih =>
    intro p cur acc calls fuel hpk hp hfuel
    obtain ⟨f, rfl⟩ : ∃ f, fuel = f + 1 := ⟨fuel - 1, by omega⟩
    have hrp : (run_rembg (w.outcomes (p - 1))).1 = true := hrun p hp (by omega)
    have hgp : (ask_user_happy w p).happy = false := hgate p hp (by omega)
    have hstep : hopLoop w input_path env (f + 1) p cur acc calls =
        hopLoop w input_path env f (p + 1) (passPath input_path p)
          (acc ++ [(passPath input_path p).name])
          (calls ++ [⟨cur, passPath input_path p, env⟩]) := by
      rw [hopLoop]
      simp [hrp, hgp]
    rw [hstep, ih (p + 1) (passPath input_path p)
      (acc ++ [(passPath input_path p).name])
      (calls ++ [RembgCall.mk cur (passPath input_path p) env]) f
      (by omega) (by omega) (by omega)]
    have hr : List.range' p (k + 1) = p :: List.range' (p + 1) k :=
      List.range'_succ p k 1
    simp [hr, hopChain, List.append_assoc]

theorem hopLoop_env (w : Env) (input_path : PyPath) (env : String → Option String) :
    ∀ fuel p cur acc calls r,
      (∀ c ∈ calls, c.envUsed = env) →
      hopLoop w input_path env fuel p cur acc calls = some r →
      ∀ c ∈ r.calls, c.envUsed = env := by
  intro fuel
  induction fuel with
  | zero =>
    intro p cur acc calls r hc h
    exact absurd h (by simp [hopLoop])
  | succ fuel ih =>
    intro p cur acc calls r hc h
    have hext : ∀ c ∈ calls ++ [RembgCall.mk cur (passPath input_path p) env],
        c.envUsed = env := by
      intro c hc2
      rcases List.mem_append.mp hc2 with h3 | h3
      · exact hc c h3
      · rw [List.mem_singleton.mp h3]
    simp only [hopLoop] at h
    split at h
    · injection h with h2x
      subst h2x
      exact hext
    · split at h
      · injection h with h2x
        subst h2x
        exact hext
      · exact ih (p + 1) (passPath input_path p) _ _ r hext h

theorem hopLoop_distinct (w : Env) (input_path : PyPath) (env : String → Option String)
    (hf : formatSupported (pysuffix input_path.name)) :
    ∀ fuel p cur acc calls r,
      1 ≤ p →
      (p = 1 → cur = input_path) →
      (2 ≤ p → cur = passPath input_path (p - 1)) →
      (∀ c ∈ calls, c.input ≠ c.output) →
      hopLoop w input_path env fuel p cur acc calls = some r →
      ∀ c ∈ r.calls, c.input ≠ c.output := by
  intro fuel
  induction fuel with
  | zero =>
    intro p cur acc calls r _ _ _ _ h
    exact absurd h (by simp [hopLoop])
  | succ fuel ih =>
    intro p cur acc calls r hp h1 h2 hc h
    have hcur : cur ≠ passPath input_path p := by
      by_cases hp1 : p = 1
      · subst hp1
        rw [h1 rfl]
        exact input_ne_passPath hf 1
      · have hp2 : 2 ≤ p := by omega
        rw [h2 hp2]
        exact passPath_ne (by omega)
    have hext : ∀ c ∈ calls ++ [RembgCall.mk cur (passPath input_path p) env],
        c.input ≠ c.output := by
      intro c hc2
      rcases List.mem_append.mp hc2 with h3 | h3
      · exact hc c h3
      · rw [List.mem_singleton.mp h3]
        exact hcur
    simp only [hopLoop] at h
    split at h
    · injection h with h2x
      subst h2x
      exact hext
    · split at h
      · injection h with h2x
        subst h2x
        exact hext
      · exact ih (p + 1) (passPath input_path p) _ _ r (by omega)
          (fun hx => absurd hx (by omega)) (fun _ => by simp) hext h

theorem infinite_hop_unfold (w : Env) (input_path : PyPath) (fuel : Nat) (b : String)
    (hex : w.fileExists input_path = true)
    (hfmt : formatSupported (pysuffix input_path.name))
    (hbin : w.rembgBinary = some b) :
    remove_background_infinite_hop w input_path fuel =
      hopLoop w input_path (prepare_env w.ambientEnv w.rocmGfxConfig) fuel
        1 input_path [] [] := by
  simp [remove_background_infinite_hop, hex, hfmt, prepare_rembg, hbin]

/-- C10: the fixed extension allow-list shared by all three workflow modes
is exactly {.png, .jpg, .jpeg, .webp, .bmp, .tiff, .tif}: an extension
passes the format check exactly when its lower-cased form is in this set;
.gif (and every extension outside the set) is rejected, and upper-case
variants of members are accepted. -/
theorem claim_C10_supported_formats :
    SUPPORTED_FORMATS = [".png", ".jpg", ".jpeg", ".webp", ".bmp", ".tiff", ".tif"]
    ∧ (∀ ext : String, formatSupported ext ↔
        strLower ext ∈ [".png", ".jpg", ".jpeg", ".webp", ".bmp", ".tiff", ".tif"])
    ∧ (formatSupported ".gif" ↔ False)
    ∧ formatSupported ".PNG" ∧ formatSupported ".JpEg" :=
  ⟨rfl, fun _ => Iff.rfl, ⟨by decide, False.elim⟩, by decide, by decide⟩

/-- C7: when the external process completes with exit code 0, the Process
Runner reports success with an empty error message; on a non-zero exit
code it reports failure with message equal to the captured stderr when
non-empty, else the captured stdout when non-empty, else the fixed
"Unknown error" sentinel. -/
theorem claim_C7_exit_code_classification (rc : Int) (out err : String) :
    (rc = 0 → run_rembg (.completed rc out err) = (true, "")) ∧
    (rc ≠ 0 → err ≠ "" → run_rembg (.completed rc out err) = (false, err)) ∧
    (rc ≠ 0 → err = "" → out ≠ "" → run_rembg (.completed rc out err) = (false, out)) ∧
    (rc ≠ 0 → err = "" → out = "" →
      run_rembg (.completed rc out err) = (false, "Unknown error")) := by
  refine ⟨fun h0 => ?_, fun h0 he => ?_, fun h0 he ho => ?_, fun h0 he ho => ?_⟩
  · simp [run_rembg, h0]
  · simp [run_rembg, h0, he]
  · simp [run_rembg, h0, he, ho]
  · simp [run_rembg, h0, he, ho]

theorem claim_C7_witness :
    run_rembg (.completed 0 "o" "e") = (true, "") ∧
    run_rembg (.completed 1 "o" "e") = (false, "e") ∧
    run_rembg (.completed 1 "o" "") = (false, "o") ∧
    run_rembg (.completed 2 "" "") = (false, "Unknown error") :=
  ⟨(claim_C7_exit_code_classification 0 "o" "e").1 rfl,
   (claim_C7_exit_code_classification 1 "o" "e").2.1 (by decide) (by decide),
   (claim_C7_exit_code_classification 1 "o" "").2.2.1 (by decide) rfl (by decide),
   (claim_C7_exit_code_classification 2 "" "").2.2.2 (by decide) rfl rfl⟩

/-- C6 counterexample: the claim says the fixed timeout message is
distinct from every exit-code-failure message, but an exit-code failure
whose captured stderr is exactly the text "Operation timed out
(>2 minutes)" produces a message equal to the timeout message. -/
theorem claim_C6_counterexample :
    (run_rembg (.completed 1 "" "Operation timed out (>2 minutes)")).2 =
      (run_rembg .timedOut).2 ∧
    (run_rembg (.completed 1 "" "Operation timed out (>2 minutes)")).1 = false ∧
    (run_rembg .timedOut).1 = false := by
  refine ⟨?_, ?_, rfl⟩ <;> decide

/-- C6 (amended): if the external process exceeds the 120-second timeout,
the Process Runner returns failure with the single fixed message
"Operation timed out (>2 minutes)", which carries no exit-code, stdout or
stderr text and differs from the "Unknown error" sentinel; it differs
from every exit-code-failure message except when the captured stderr or
stdout text itself equals that fixed string. -/
theorem claim_C6_timeout_message (rc : Int) (out err : String) :
    run_rembg .timedOut = (false, "Operation timed out (>2 minutes)") ∧
    ("Operation timed out (>2 minutes)" ≠ "Unknown error") ∧
    (rc ≠ 0 → err ≠ "Operation timed out (>2 minutes)" →
      out ≠ "Operation timed out (>2 minutes)" →
      (run_rembg (.completed rc out err)).2 ≠ "Operation timed out (>2 minutes)") := by
  refine ⟨rfl, by decide, fun h0 he ho => ?_⟩
  have hcase : run_rembg (.completed rc out err) =
      (false, if err ≠ "" then err else if out ≠ "" then out else "Unknown error") := by
    simp [run_rembg, h0]
  rw [hcase]
  dsimp only
  split_ifs with hA hB
  · exact he
  · exact ho
  · decide

theorem claim_C6_witness :
    run_rembg .timedOut = (false, "Operation timed out (>2 minutes)") ∧
    (run_rembg (.completed 1 "x" "y")).2 ≠ "Operation timed out (>2 minutes)" :=
  ⟨(claim_C6_timeout_message 1 "x" "y").1,
   (claim_C6_timeout_message 1 "x" "y").2.2 (by decide) (by decide) (by decide)⟩

/-- C8: the Confirmation Gate reports "happy" exactly when the dialog
tool that ran exited 0 (any non-zero code means "continue"); when kdialog
is unavailable it falls back to zenity with the same exit-code semantics;
when neither is available it auto-accepts and prints an informational
notice, so the loop never continues silently without a dialog tool. -/
theorem claim_C8_confirmation_gate (w : Env) (n : Nat) :
    (w.kdialogAvail = true →
      ask_user_happy w n = ⟨w.kdialogCode n == 0, []⟩ ∧
      ((ask_user_happy w n).happy = true ↔ w.kdialogCode n = 0)) ∧
    (w.kdialogAvail = false → w.zenityAvail = true →
      ask_user_happy w n = ⟨w.zenityCode n == 0, []⟩ ∧
      ((ask_user_happy w n).happy = true ↔ w.zenityCode n = 0)) ∧
    (w.kdialogAvail = false → w.zenityAvail = false →
      ask_user_happy w n =
        ⟨true, ["No dialog tool available (kdialog/zenity). Stopping after this pass."]⟩) := by
  refine ⟨fun hk => ⟨?_, ?_⟩, fun hk hz => ⟨?_, ?_⟩, fun hk hz => ?_⟩
  · simp [ask_user_happy, hk]
  · simp [ask_user_happy, hk]
  · simp [ask_user_happy, hk, hz]
  · simp [ask_user_happy, hk, hz]
  · simp [ask_user_happy, hk, hz]

theorem claim_C8_witness :
    ask_user_happy wNoDialog 1 =
      ⟨true, ["No dialog tool available (kdialog/zenity). Stopping after this pass."]⟩ ∧
    ((ask_user_happy wS 2).happy = true ↔ wS.kdialogCode 2 = 0) :=
  ⟨(claim_C8_confirmation_gate wNoDialog 1).2.2 rfl rfl,
   ((claim_C8_confirmation_gate wS 2).1 rfl).2⟩

theorem remove_background_envUsed (w : Env) (ip : PyPath) (op : Option PyPath) :
    ∀ c ∈ (remove_background w ip op).calls,
      c.envUsed = prepare_env w.ambientEnv w.rocmGfxConfig := by
  intro c hc
  simp only [remove_background] at hc
  split at hc
  · simp at hc
  · split at hc
    · simp at hc
    · cases hb : w.rembgBinary with
      | none =>
        simp only [prepare_rembg, hb] at hc
        simp at hc
      | some b2 =>
        simp only [prepare_rembg, hb] at hc
        split at hc
        all_goals
          simp at hc
          subst hc
          rfl

theorem two_pass_envUsed (w : Env) (ip : PyPath) :
    ∀ c ∈ (remove_background_two_pass w ip).calls,
      c.envUsed = prepare_env w.ambientEnv w.rocmGfxConfig := by
  intro c hc
  simp only [remove_background_two_pass] at hc
  split at hc
  · simp at hc
  · split at hc
    · simp at hc
    · cases hb : w.rembgBinary with
      | none =>
        simp only [prepare_rembg, hb] at hc
        simp at hc
      | some b2 =>
        simp only [prepare_rembg, hb] at hc
        split at hc
        · simp at hc
          subst hc
          rfl
        · split at hc
          all_goals
            simp at hc
            rcases hc with hc | hc <;> (subst hc; rfl)

theorem infinite_hop_envUsed (w : Env) (ip : PyPath) (fuel : Nat) (r : RunResult)
    (h : remove_background_infinite_hop w ip fuel = some r) :
    ∀ c ∈ r.calls, c.envUsed = prepare_env w.ambientEnv w.rocmGfxConfig := by
  simp only [remove_background_infinite_hop] at h
  split at h
  · injection h with h2
    subst h2
    intro c hc
    simp at hc
  · split at h
    · injection h with h2
      subst h2
      intro c hc
      simp at hc
    · cases hb : w.rembgBinary with
      | none =>
        simp only [prepare_rembg, hb] at h
        injection h with h2
        subst h2
        intro c hc
        simp at hc
      | some b2 =>
        simp only [prepare_rembg, hb] at h
        exact hopLoop_env w ip (prepare_env w.ambientEnv w.rocmGfxConfig) fuel 1 ip
          [] [] r (fun c hc => absurd hc (List.not_mem_nil c)) h

/-- C9: the environment passed to every executed pass, in every workflow
mode, is a copy of the ambient process environment with
HSA_OVERRIDE_GFX_VERSION overlaid exactly when the configured override is
a non-empty string; with an empty or null configured value the map is the
ambient environment unchanged (in particular the variable is not set to
the empty string), and no other variable is added or changed. -/
theorem claim_C9_pass_environment (w : Env) :
    (∀ v, w.rocmGfxConfig = some v → v ≠ "" →
      prepare_env w.ambientEnv w.rocmGfxConfig "HSA_OVERRIDE_GFX_VERSION" = some v ∧
      ∀ k, k ≠ "HSA_OVERRIDE_GFX_VERSION" →
        prepare_env w.ambientEnv w.rocmGfxConfig k = w.ambientEnv k) ∧
    ((w.rocmGfxConfig = none ∨ w.rocmGfxConfig = some "") →
      prepare_env w.ambientEnv w.rocmGfxConfig = w.ambientEnv) ∧
    (∀ ip op c, c ∈ (remove_background w ip op).calls →
      c.envUsed = prepare_env w.ambientEnv w.rocmGfxConfig) ∧
    (∀ ip c, c ∈ (remove_background_two_pass w ip).calls →
      c.envUsed = prepare_env w.ambientEnv w.rocmGfxConfig) ∧
    (∀ ip fuel r c, remove_background_infinite_hop w ip fuel = some r →
      c ∈ r.calls → c.envUsed = prepare_env w.ambientEnv w.rocmGfxConfig) := by
  refine ⟨fun v hv hne => ⟨?_, fun k hk => ?_⟩, fun hdis => ?_,
    fun ip op c hc => remove_background_envUsed w ip op c hc,
    fun ip c hc => two_pass_envUsed w ip c hc,
    fun ip fuel r c h hc => infinite_hop_envUsed w ip fuel r h c hc⟩
  · simp [prepare_env, get_rocm_gfx_version, hv, hne]
  · simp [prepare_env, get_rocm_gfx_version, hv, hne, hk]
  · rcases hdis with hd | hd <;> simp [prepare_env, get_rocm_gfx_version, hd]

theorem claim_C9_witness :
    prepare_env wS.ambientEnv wS.rocmGfxConfig "HSA_OVERRIDE_GFX_VERSION" =
      some "11.0.1" ∧
    prepare_env wNoRocm.ambientEnv wNoRocm.rocmGfxConfig = wNoRocm.ambientEnv ∧
    ∀ c ∈ (remove_background wS pPhoto none).calls,
      c.envUsed = prepare_env wS.ambientEnv wS.rocmGfxConfig :=
  ⟨((claim_C9_pass_environment wS).1 "11.0.1" rfl (by decide)).1,
   (claim_C9_pass_environment wNoRocm).2.1 (Or.inl rfl),
   fun c hc => (claim_C9_pass_environment wS).2.2.1 pPhoto none c hc⟩

/-- C3: a missing input file makes every workflow mode fail with
"File not found: …", and an existing input whose (case-insensitively
compared) extension is outside the allow-list makes every mode fail with
"Unsupported format: <ext>"; in both cases no rembg call is recorded
(`calls = []`) and the result is the same for every oracle — in
particular for every value of `rembgBinary`, so the failure happens
before the location of the removal tool is resolved. -/
theorem claim_C3_early_validation (w : Env) (input_path : PyPath)
    (output_path : Option PyPath) (fuel : Nat) :
    (w.fileExists input_path = false →
      remove_background w input_path output_path =
        ⟨false, "File not found: " ++ input_path.render, [], []⟩ ∧
      remove_background_two_pass w input_path =
        ⟨false, "File not found: " ++ input_path.render, [], []⟩ ∧
      remove_background_infinite_hop w input_path fuel =
        some ⟨false, "File not found: " ++ input_path.render, [], []⟩) ∧
    (w.fileExists input_path = true → ¬ formatSupported (pysuffix input_path.name) →
      remove_background w input_path output_path =
        ⟨false, "Unsupported format: " ++ pysuffix input_path.name, [], []⟩ ∧
      remove_background_two_pass w input_path =
        ⟨false, "Unsupported format: " ++ pysuffix input_path.name, [], []⟩ ∧
      remove_background_infinite_hop w input_path fuel =
        some ⟨false, "Unsupported format: " ++ pysuffix input_path.name, [], []⟩) := by
  constructor
  · intro h
    refine ⟨?_, ?_, ?_⟩
    · simp [remove_background, h]
    · simp [remove_background_two_pass, h]
    · simp [remove_background_infinite_hop, h]
  · intro hex hfmt
    refine ⟨?_, ?_, ?_⟩
    · simp [remove_background, hex, hfmt]
    · simp [remove_background_two_pass, hex, hfmt]
    · simp [remove_background_infinite_hop, hex, hfmt]

theorem claim_C3_witness :
    remove_background wMissing pPhoto none =
      ⟨false, "File not found: " ++ pPhoto.render, [], []⟩ ∧
    remove_background_infinite_hop wS ⟨"", "photo.gif"⟩ 0 =
      some ⟨false, "Unsupported format: " ++ pysuffix "photo.gif", [], []⟩ :=
  ⟨((claim_C3_early_validation wMissing pPhoto none 0).1 rfl).1,
   ((claim_C3_early_validation wS ⟨"", "photo.gif"⟩ none 0).2 rfl (by decide)).2.2⟩

/-- C5: a successful single-pass run with no explicit output path writes
to `<input-stem><configured-suffix>.png` in the directory of the input file
(always a `.png` name), reports success, and names that file in its
message. -/
theorem claim_C5_default_output (w : Env) (input_path : PyPath) (b : String)
    (hex : w.fileExists input_path = true)
    (hfmt : formatSupported (pysuffix input_path.name))
    (hbin : w.rembgBinary = some b)
    (hok : (run_rembg (w.outcomes 0)).1 = true) :
    remove_background w input_path none =
      ⟨true,
        "Background removed.\nSaved to: " ++
          (pystem input_path.name ++ w.outputSuffix ++ ".png"),
        [],
        [⟨input_path,
          ⟨input_path.dir, pystem input_path.name ++ w.outputSuffix ++ ".png"⟩,
          prepare_env w.ambientEnv w.rocmGfxConfig⟩]⟩ ∧
    ∃ base, pystem input_path.name ++ w.outputSuffix ++ ".png" = base ++ ".png" := by
  constructor
  · simp [remove_background, hex, hfmt, prepare_rembg, hbin, hok]
  · exact ⟨pystem input_path.name ++ w.outputSuffix, rfl⟩

theorem claim_C5_witness :
    (remove_background wS pPhoto none).success = true ∧
    (remove_background wS pPhoto none).message =
      "Background removed.\nSaved to: photo_noBG.png" ∧
    (remove_background wS pPhoto none).calls.length = 1 ∧
    ((remove_background wS pPhoto none).calls.getD 0 dummyCall).output =
      ⟨"", "photo_noBG.png"⟩ := by
  have h := (claim_C5_default_output wS pPhoto "/usr/bin/rembg" rfl (by decide)
    rfl rfl).1
  rw [h]
  refine ⟨rfl, ?_, rfl, ?_⟩ <;> decide

/-- C2: in the multi-pass workflows no later pass starts after an earlier
pass fails: the two-pass workflow stops after a failed first pass with
"First pass failed: …" and exactly one recorded rembg call (pass 2 is
never attempted), after a failed second pass it stops with "Second pass
failed: …" and two calls, and the infinite-hop loop whose first failure
is at pass N stops there with "Pass N failed: …" after exactly N calls. -/
theorem claim_C2_fail_short_circuit :
    (∀ (w : Env) (input_path : PyPath) (b : String),
      w.fileExists input_path = true →
      formatSupported (pysuffix input_path.name) →
      w.rembgBinary = some b →
      (run_rembg (w.outcomes 0)).1 = false →
      remove_background_two_pass w input_path =
        ⟨false, "First pass failed: " ++ (run_rembg (w.outcomes 0)).2, [],
          [⟨input_path,
            ⟨input_path.dir, pystem input_path.name ++ "_noBG-first-pass.png"⟩,
            prepare_env w.ambientEnv w.rocmGfxConfig⟩]⟩) ∧
    (∀ (w : Env) (input_path : PyPath) (b : String),
      w.fileExists input_path = true →
      formatSupported (pysuffix input_path.name) →
      w.rembgBinary = some b →
      (run_rembg (w.outcomes 0)).1 = true →
      (run_rembg (w.outcomes 1)).1 = false →
      remove_background_two_pass w input_path =
        ⟨false, "Second pass failed: " ++ (run_rembg (w.outcomes 1)).2, [],
          [⟨input_path,
            ⟨input_path.dir, pystem input_path.name ++ "_noBG-first-pass.png"⟩,
            prepare_env w.ambientEnv w.rocmGfxConfig⟩,
           ⟨⟨input_path.dir, pystem input_path.name ++ "_noBG-first-pass.png"⟩,
            ⟨input_path.dir, pystem input_path.name ++ "_noBG-second-pass.png"⟩,
            prepare_env w.ambientEnv w.rocmGfxConfig⟩]⟩) ∧
    (∀ (w : Env) (input_path : PyPath) (b : String) (N fuel : Nat),
      w.fileExists input_path = true →
      formatSupported (pysuffix input_path.name) →
      w.rembgBinary = some b →
      1 ≤ N → N ≤ fuel →
      (∀ i, 1 ≤ i → i < N → (run_rembg (w.outcomes (i - 1))).1 = true) →
      (∀ i, 1 ≤ i → i < N → (ask_user_happy w i).happy = false) →
      (run_rembg (w.outcomes (N - 1))).1 = false →
      remove_background_infinite_hop w input_path fuel =
        some ⟨false,
          "Pass " ++ pyNat N ++ " failed: " ++ (run_rembg (w.outcomes (N - 1))).2,
          (List.range' 1 (N - 1)).map fun i => (passPath input_path i).name,
          hopChain input_path (prepare_env w.ambientEnv w.rocmGfxConfig)
            input_path 1 N⟩ ∧
      (hopChain input_path (prepare_env w.ambientEnv w.rocmGfxConfig)
          input_path 1 N).length = N) := by
  refine ⟨?_, ?_, ?_⟩
  · intro w input_path b hex hfmt hbin hfail
    simp [remove_background_two_pass, hex, hfmt, prepare_rembg, hbin, hfail]
  · intro w input_path b hex hfmt hbin hok1 hfail2
    simp [remove_background_two_pass, hex, hfmt, prepare_rembg, hbin, hok1, hfail2]
  · intro w input_path b N fuel hex hfmt hbin hN hfuel hrun hgate hfailN
    constructor
    · rw [infinite_hop_unfold w input_path fuel b hex hfmt hbin]
      have hk : N - 1 + 1 = N := by omega
      have h := hopLoop_fail w input_path (prepare_env w.ambientEnv w.rocmGfxConfig)
        N hrun hgate hfailN (N - 1) 1 input_path [] [] fuel (by omega) (by omega)
        (by omega)
      rw [hk] at h
      rw [h]
      simp
    · exact hopChain_length input_path (prepare_env w.ambientEnv w.rocmGfxConfig) N
        input_path 1

theorem claim_C2_witness :
    (remove_background_two_pass wFail pPhoto).message = "First pass failed: boom" ∧
    (remove_background_two_pass wFail pPhoto).calls.length = 1 ∧
    remove_background_infinite_hop wFail pPhoto 1 =
      some ⟨false, "Pass " ++ pyNat 1 ++ " failed: " ++ (run_rembg (wFail.outcomes 0)).2,
        (List.range' 1 0).map (fun i => (passPath pPhoto i).name),
        hopChain pPhoto (prepare_env wFail.ambientEnv wFail.rocmGfxConfig)
          pPhoto 1 1⟩ := by
  have h1 := (claim_C2_fail_short_circuit).1 wFail pPhoto "/usr/bin/rembg"
    rfl (by decide) rfl rfl
  have h3 := (claim_C2_fail_short_circuit).2.2 wFail pPhoto "/usr/bin/rembg" 1 1
    rfl (by decide) rfl (by omega) (by omega)
    (fun i hi1 hi2 => absurd hi2 (by omega))
    (fun i hi1 hi2 => absurd hi2 (by omega)) rfl
  refine ⟨?_, ?_, h3.1⟩
  · rw [h1]
    decide
  · rw [h1]
    rfl

/-- C1: in infinite-hop mode, if every pass succeeds and the gate reports
"happy" on iteration N and not before (N ≥ 1), the workflow returns
success after exactly N recorded rembg calls, pass 1 reads the original
input and every later pass i reads the output file of pass i-1, named
`<stem>_noBG-pass-(i-1).png`, writing `<stem>_noBG-pass-i.png`; the
summary lists exactly the N pass filenames pass-1 … pass-N in order and
names `<stem>_noBG-pass-N.png` as the final output. -/
theorem claim_C1_infinite_hop_happy (w : Env) (input_path : PyPath) (b : String)
    (N fuel : Nat)
    (hex : w.fileExists input_path = true)
    (hfmt : formatSupported (pysuffix input_path.name))
    (hbin : w.rembgBinary = some b)
    (hN : 1 ≤ N) (hfuel : N ≤ fuel)
    (hrun : ∀ i, 1 ≤ i → i ≤ N → (run_rembg (w.outcomes (i - 1))).1 = true)
    (hgate : ∀ i, 1 ≤ i → i < N → (ask_user_happy w i).happy = false)
    (hhappy : (ask_user_happy w N).happy = true) :
    ∃ r, remove_background_infinite_hop w input_path fuel = some r ∧
      r.success = true ∧
      r.calls.length = N ∧
      (∀ i, 1 ≤ i → i ≤ N → r.calls.getD (i - 1) dummyCall =
        ⟨(if i = 1 then input_path else passPath input_path (i - 1)),
          passPath input_path i, prepare_env w.ambientEnv w.rocmGfxConfig⟩) ∧
      r.passNames = (List.range' 1 N).map (fun i => (passPath input_path i).name) ∧
      r.message = hopSummary N r.passNames (passPath input_path N) := by
  have hu := infinite_hop_unfold w input_path fuel b hex hfmt hbin
  have hk : N - 1 + 1 = N := by omega
  have h := hopLoop_happy w input_path (prepare_env w.ambientEnv w.rocmGfxConfig) N
    hrun hgate hhappy (N - 1) 1 input_path [] [] fuel (by omega) (by omega) (by omega)
  rw [hk] at h
  rw [hu, h]
  refine ⟨_, rfl, rfl, ?_, ?_, ?_, rfl⟩
  · simp [hopChain_length]
  · intro i hi1 hi2
    simp only [List.nil_append]
    rw [hopChain_getD input_path (prepare_env w.ambientEnv w.rocmGfxConfig) N 1
      input_path (i - 1) (by omega)]
    by_cases hi : i = 1
    · subst hi
      simp
    · have h0 : ¬ (i - 1 = 0) := by omega
      have e1 : 1 + (i - 1) - 1 = i - 1 := by omega
      have e2 : 1 + (i - 1) = i := by omega
      simp [hi, h0, e1, e2]
  · simp

theorem claim_C1_witness :
    ∃ r, remove_background_infinite_hop wHop pPhoto 2 = some r ∧
      r.success = true ∧
      r.calls.length = 2 ∧
      (∀ i, 1 ≤ i → i ≤ 2 → r.calls.getD (i - 1) dummyCall =
        ⟨(if i = 1 then pPhoto else passPath pPhoto (i - 1)), passPath pPhoto i,
          prepare_env wHop.ambientEnv wHop.rocmGfxConfig⟩) ∧
      r.passNames = (List.range' 1 2).map (fun i => (passPath pPhoto i).name) ∧
      r.message = hopSummary 2 r.passNames (passPath pPhoto 2) :=
  claim_C1_infinite_hop_happy wHop pPhoto "/usr/bin/rembg" 2 2 rfl (by decide) rfl
    (by omega) (by omega) (fun i hi1 hi2 => rfl)
    (fun i hi1 hi2 => by
      have hieq : i = 1 := by omega
      subst hieq
      rfl)
    rfl

/-- C4 counterexample: a single-pass run whose caller supplies the input
path itself as the explicit output path executes exactly one pass whose
output path equals its input path — the orchestrator performs no such
distinctness check, so the claim fails for caller-supplied output
paths. -/
theorem claim_C4_counterexample :
    (remove_background wS pPhoto (some pPhoto)).calls.length = 1 ∧
    ((remove_background wS pPhoto (some pPhoto)).calls.getD 0 dummyCall).output =
      ((remove_background wS pPhoto (some pPhoto)).calls.getD 0 dummyCall).input ∧
    (remove_background wS pPhoto (some pPhoto)).success = true := by
  refine ⟨rfl, rfl, rfl⟩

/-- C4 (amended): every executed pass of the two-pass and infinite-hop
workflows, and of a single-pass run with a derived (default) output path
— except the degenerate case of an empty configured suffix on a `.png`
input — has an output path distinct from its input path; a
caller-supplied explicit output path equal to the input path is not
rejected. -/
theorem claim_C4_distinct_paths :
    (∀ (w : Env) (input_path : PyPath),
      ∀ c ∈ (remove_background_two_pass w input_path).calls,
        c.input ≠ c.output) ∧
    (∀ (w : Env) (input_path : PyPath) (fuel : Nat) (r : RunResult),
      remove_background_infinite_hop w input_path fuel = some r →
      ∀ c ∈ r.calls, c.input ≠ c.output) ∧
    (∀ (w : Env) (input_path : PyPath),
      ¬ (w.outputSuffix = "" ∧ pysuffix input_path.name = ".png") →
      ∀ c ∈ (remove_background w input_path none).calls,
        c.input ≠ c.output) := by
  refine ⟨?_, ?_, ?_⟩
  · intro w input_path c hc
    simp only [remove_background_two_pass] at hc
    split at hc
    · simp at hc
    · split at hc
      · simp at hc
      · rename_i hfmt2
        have hf : formatSupported (pysuffix input_path.name) := not_not.mp hfmt2
        have hne1 : input_path.name ≠
            pystem input_path.name ++ "_noBG-first-pass.png" :=
          name_ne_stem_append hf (by decide)
        have hne2 : pystem input_path.name ++ "_noBG-first-pass.png" ≠
            pystem input_path.name ++ "_noBG-second-pass.png" := fun he =>
          (by decide : ("_noBG-first-pass.png" : String) ≠ "_noBG-second-pass.png")
            (append_left_inj _ he)
        cases hb : w.rembgBinary with
        | none =>
          simp only [prepare_rembg, hb] at hc
          simp at hc
        | some b2 =>
          simp only [prepare_rembg, hb] at hc
          split at hc
          · simp at hc
            subst hc
            exact fun he => hne1 (congrArg PyPath.name he)
          · split at hc <;>
            · simp at hc
              rcases hc with hc | hc <;> subst hc
              · exact fun he => hne1 (congrArg PyPath.name he)
              · exact fun he => hne2 (congrArg PyPath.name he)
  · intro w input_path fuel r h c hc
    simp only [remove_background_infinite_hop] at h
    split at h
    · injection h with h2
      subst h2
      simp at hc
    · split at h
      · injection h with h2
        subst h2
        simp at hc
      · rename_i hfmt2
        have hf : formatSupported (pysuffix input_path.name) := not_not.mp hfmt2
        cases hb : w.rembgBinary with
        | none =>
          simp only [prepare_rembg, hb] at h
          injection h with h2
          subst h2
          simp at hc
        | some b2 =>
          simp only [prepare_rembg, hb] at h
          exact hopLoop_distinct w input_path
            (prepare_env w.ambientEnv w.rocmGfxConfig) hf fuel 1 input_path [] [] r
            (by omega) (fun _ => rfl) (fun hx => absurd hx (by omega))
            (fun c hc => absurd hc (List.not_mem_nil c)) h c hc
  · intro w input_path hns c hc
    simp only [remove_background] at hc
    split at hc
    · simp at hc
    · split at hc
      · simp at hc
      · rename_i hfmt2
        have hf : formatSupported (pysuffix input_path.name) := not_not.mp hfmt2
        cases hb : w.rembgBinary with
        | none =>
          simp only [prepare_rembg, hb] at hc
          simp at hc
        | some b2 =>
          simp only [prepare_rembg, hb] at hc
          split at hc
          all_goals
            simp at hc
            subst hc
            intro he
            have hn := congrArg PyPath.name he
            dsimp only at hn
            rw [String.append_assoc] at hn
            have hd := congrArg String.data hn
            rw [String.data_append] at hd
            have h2 : (pystem input_path.name).data ++ (pysuffix input_path.name).data =
                (pystem input_path.name).data ++
                  (w.outputSuffix ++ ".png").data := by
              rw [pystem_append_pysuffix]
              exact hd
            have h3 := str_data_inj (List.append_cancel_left h2)
            have h4 := fmt_png_split hf h3
            exact hns ⟨h4.1, h4.2⟩

theorem claim_C4_witness :
    ((remove_background wS pPhoto none).calls.getD 0 dummyCall).input ≠
      ((remove_background wS pPhoto none).calls.getD 0 dummyCall).output := by
  have h := (claim_C4_distinct_paths).2.2 wS pPhoto (by decide)
  apply h
  exact List.mem_cons_self _ _
